import Mathlib

/-!
Verification of the `rds-port-forward` resolution pipeline.

This file shallowly embeds the parts of the TypeScript source that the
verified properties speak about:

* `src/lib/resolver/target.ts` — `TargetResolver` (the `target` getter and
  the `resolveCluster` / `resolveService` / `resolveContainer` stages);
* `src/lib/resolver/forwardingParams.ts` — `ForwardingParamsResolver`
  (the `forwardingParams` getter, `getContainerEnv`, `resolveDbHost`);
* `src/lib/client/index.ts` — the batching describe client
  (`getBatch`, `paginateDescribeTasksRequest`);
* `src/lib/cli/cli.ts` — `CliManager.formatCliArgs`.

Conventions of the embedding:

* A TypeScript `string | undefined` field is an `Option String`.
* JavaScript truthiness of such a value (`if (!x) ...`) is the `truthy`
  predicate below: `undefined` and the empty string are both falsy, so a
  field counts as "set"/"resolved" exactly when it holds a non-empty
  string — this is the reading the source's own guards use everywhere.
* A JavaScript string-keyed object is an association list
  `List (String × α)` with the object's update semantics: assigning to an
  existing key overwrites it in place, assigning to a fresh key appends
  (`jsSet`); property reads are `jsGet`.
* Code that `throw`s is a function into `Except String α`, carrying the
  thrown `Error`'s message.
* Interactive prompts (`select`, `confirm` of `@inquirer/prompts`) are
  passed in as oracle functions, and each run reports the prompts it
  issued as a list of `Interaction`s, so that theorems can state when a
  stage does or does not require user input.
* `Fuse` fuzzy search is an oracle function `String → List (Option String)
  → List (Option String)` (query, candidates, ranked matches), exactly the
  shape the spec assigns to the external approximate-matching collaborator.
-/

namespace RdsPf

/-- JavaScript truthiness of a `string | undefined` value: `undefined` and
`""` are falsy, every other string is truthy. -/
def truthy : Option String → Bool
  | none => false
  | some s => !(s == "")

/-- JavaScript rendering of a `string | undefined` value inside a template
literal: `undefined` prints as "undefined". -/
def jsStr : Option String → String
  | none => "undefined"
  | some s => s

/-- Property read on a JavaScript string-keyed object. -/
def jsGet {α : Type} : List (String × α) → String → Option α
  | [], _ => none
  | p :: t, k => if p.1 = k then some p.2 else jsGet t k

/-- Property write on a JavaScript string-keyed object: an existing key is
overwritten in place (its position is kept), a fresh key is appended. -/
def jsSet {α : Type} (m : List (String × α)) (k : String) (v : α) : List (String × α) :=
  if (jsGet m k).isSome then
    m.map (fun p => if p.1 = k then (k, v) else p)
  else
    m ++ [(k, v)]

/-- JavaScript `String.prototype.split` with a one-character separator,
then index access `[i]` (which yields `undefined` out of range). -/
def jsSplitAt (s : String) (sep : String) (i : Nat) : Option String :=
  (s.splitOn sep)[i]?

/-- JavaScript `s.split(sep).pop()`: the last segment. -/
def jsSplitLast (s : String) (sep : String) : Option String :=
  (s.splitOn sep).getLast?

/-- JavaScript `Array.prototype.join(sep)` on an array of strings. -/
def joinSep (sep : String) : List String → String
  | [] => ""
  | [x] => x
  | x :: xs => x ++ sep ++ joinSep sep xs

/-! ## Error and prompt text (`src/lib/resolver/uiText.ts` and literals) -/

namespace targetText

def CLUSTER_NOT_RESOLVED : String :=
  "Cluster name is not set. Did you run `resolveCluster()` first?"

def TASK_ID_NOT_RESOLVED : String :=
  "Task ID is not set. Did you run `resolveTask()` first?"

def CONTAINER_NOT_RESOLVED : String :=
  "Target container runtime ID was not resolved"

def NO_CLUSTERS : String := "No ECS clusters found"

def NO_SERVICES : String := "No services found in the cluster"

def SERVICE_NOT_MATCHED : String :=
  "No services with matching or similar name were found"

def FUZZY_SERVICE_NOT_CONFIRMED : String :=
  "Cannot use the only potentially matching service"

def CONFIRM_FUZZY_SERVICE : String :=
  "❔ Found a similarly named service, should we use it?"

def MULTIPLE_FUZZY_SERVICES_FOUND_PROMPT : String :=
  "🤔 Multiple similarly named services found, select the one to use"

def SELECT_CLUSTER_PROMPT : String := "🌍 Select the target ECS cluster"

def SELECT_CONTAINER_PROMPT : String :=
  "🤔 Select the container that will be used for port forwarding"

def TASK_NOT_FOUND : String :=
  "Task with the provided ID was not found. Did it get evicted in the meantime?"

def NO_CONTAINERS_IN_TASK : String :=
  "No containers were found inside the specified task"

end targetText

/-! ## The shared resolution state (`src/lib/mediator.ts`, `src/lib/cli/cli.ts`) -/

/-- `Arg` of `cli.ts`: one processed CLI argument. A skippable argument may
carry no value; the embedding uses one shape `{skippable, value}` covering
both `SkippableArg` and `RequiredArg`. -/
structure Arg where
  skippable : Bool
  value : Option String
deriving DecidableEq, Repr

/-- `mediator.target` of `mediator.ts`. -/
structure MediatorTarget where
  taskId : Option String
  taskDefinition : Option String
  containerName : Option String
  clusterName : Option String
deriving DecidableEq, Repr

/-- `mediator.rawArgs`: the recognized CLI flags, keyed by `argKeys` of
`cli/uiText.ts`. Field names replace the hyphens of the literal keys:
`dbHost` is `db-host`, `dbHostFromContainerEnv` is
`db-host-from-container-env`, `localPort` is `local-port`. -/
structure RawArgs where
  cluster : Option String
  service : Option String
  container : Option String
  dbHost : Option String
  dbHostFromContainerEnv : Option String
  port : Option String
  localPort : Option String
  profile : Option String
  region : Option String
deriving DecidableEq, Repr

/-- The shared mediator record of `mediator.ts` (the `verbose` flag is
carried for completeness; no verified property reads it). -/
structure Mediator where
  processedArgs : List (String × Arg)
  rawArgs : RawArgs
  target : MediatorTarget
  verbose : Bool
deriving DecidableEq, Repr

/-- One interactive prompt issued during a resolver stage: a `select` over a
list of choices together with the answer, or a `confirm` with its answer. -/
inductive Interaction where
  | selected (choices : List (Option String)) (choice : Option String)
  | confirmed (message : String) (answer : Bool)
deriving DecidableEq, Repr

/-! ## TargetResolver (`src/lib/resolver/target.ts`) -/

/-- The private fields of a `TargetResolver` instance. -/
structure TargetResolverState where
  clusterName : Option String
  taskId : Option String
  containerRuntimeId : Option String
  serviceName : Option String
deriving DecidableEq, Repr

/-- `failIfClusterNameIsNotSet` (target.ts:33): throws when `clusterName`
is falsy. -/
def failIfClusterNameIsNotSet (s : TargetResolverState) : Except String Unit :=
  if !truthy s.clusterName then .error targetText.CLUSTER_NOT_RESOLVED else .ok ()

/-- `failIfTaskIdIsNotSet` (target.ts:39): throws when `taskId` is falsy. -/
def failIfTaskIdIsNotSet (s : TargetResolverState) : Except String Unit :=
  if !truthy s.taskId then .error targetText.TASK_ID_NOT_RESOLVED else .ok ()

/-- The `target` getter (target.ts:48-55): checks cluster, then task, then
container runtime ID, and renders
``ecs:${clusterName}_${taskId}_${containerRuntimeId}``. -/
def TargetResolverState.target (s : TargetResolverState) : Except String String :=
  match failIfClusterNameIsNotSet s with
  | .error e => .error e
  | .ok _ =>
  match failIfTaskIdIsNotSet s with
  | .error e => .error e
  | .ok _ =>
  if !truthy s.containerRuntimeId then
    .error targetText.CONTAINER_NOT_RESOLVED
  else
    .ok ("ecs:" ++ jsStr s.clusterName ++ "_" ++ jsStr s.taskId ++ "_" ++
      jsStr s.containerRuntimeId)

/-- `resolveCluster` (target.ts:61-90). The paginated cluster listing is
passed in as `allClusterArns`; the `select` prompt is the oracle `pick`,
applied to the `choices` values the source builds. Returns the issued
prompts alongside the updated resolver state and mediator. -/
def resolveCluster (s : TargetResolverState) (m : Mediator)
    (allClusterArns : List String)
    (pick : List (Option String) → Option String) :
    List Interaction × Except String (TargetResolverState × Mediator) :=
  if allClusterArns.length = 0 then
    ([], .error targetText.NO_CLUSTERS)
  else
    let clusterNames := allClusterArns.map (fun arn => jsSplitAt arn "/" 1)
    if clusterNames.length = 1 then
      let cn := clusterNames[0]?.getD none
      ([], .ok ({ s with clusterName := cn },
        { m with
            processedArgs := jsSet m.processedArgs "cluster" ⟨true, cn⟩,
            target := { m.target with clusterName := cn } }))
    else
      let cn := pick clusterNames
      ([.selected clusterNames cn],
        .ok ({ s with clusterName := cn },
          { m with
              processedArgs := jsSet m.processedArgs "cluster" ⟨false, cn⟩,
              target := { m.target with clusterName := cn } }))

/-- `resolveService` (target.ts:98-167). `serviceArns` is the paginated
service listing of the resolved cluster, `fuzzy` the `Fuse` search oracle
(query, candidates ↦ ranked matches), `confirmAnswer` the answer the user
would give to the single-fuzzy-match confirmation, and `pick` the `select`
oracle. -/
def resolveService (s : TargetResolverState) (m : Mediator)
    (serviceNameLike : Option String) (serviceArns : List String)
    (fuzzy : String → List (Option String) → List (Option String))
    (confirmAnswer : Bool)
    (pick : List (Option String) → Option String) :
    List Interaction × Except String (TargetResolverState × Mediator) :=
  if !truthy s.clusterName then
    ([], .error targetText.CLUSTER_NOT_RESOLVED)
  else if !truthy serviceNameLike then
    ([], .ok (s, { m with
      processedArgs := jsSet m.processedArgs "service" ⟨true, none⟩ }))
  else
    let serviceNames := serviceArns.map (fun arn => jsSplitLast arn "/")
    if serviceNames.length = 0 then
      ([], .error targetText.NO_SERVICES)
    else
      match serviceNames.find? (fun name => name == serviceNameLike) with
      | some exactMatch =>
          let entry : Arg := ⟨decide (serviceNames.length = 1), exactMatch⟩
          ([], .ok ({ s with serviceName := exactMatch },
            { m with processedArgs := jsSet m.processedArgs "service" entry }))
      | none =>
          let potentialServices := fuzzy (jsStr serviceNameLike) serviceNames
          if potentialServices.length = 0 then
            ([], .error targetText.SERVICE_NOT_MATCHED)
          else if potentialServices.length = 1 then
            let cand := potentialServices[0]?.getD none
            let message := targetText.CONFIRM_FUZZY_SERVICE ++
              " (service: " ++ jsStr cand ++ ")"
            if !confirmAnswer then
              ([.confirmed message confirmAnswer],
                .error targetText.FUZZY_SERVICE_NOT_CONFIRMED)
            else
              let entry : Arg := ⟨false, cand⟩
              ([.confirmed message confirmAnswer],
                .ok ({ s with serviceName := cand },
                  { m with processedArgs := jsSet m.processedArgs "service" entry }))
          else
            let cand := pick potentialServices
            let entry : Arg := ⟨false, cand⟩
            ([.selected potentialServices cand],
              .ok ({ s with serviceName := cand },
                { m with processedArgs := jsSet m.processedArgs "service" entry }))

/-! ## Remote entities (the `@aws-sdk/client-ecs` shapes the source reads) -/

/-- One `{name, value}` environment pair of a container definition or of a
container override. The source casts both fields with `as string`
(forwardingParams.ts:77-78 and 88-89), so the embedding uses `String`. -/
structure KeyValuePair where
  name : String
  value : String
deriving DecidableEq, Repr

/-- A container inside a described task (`task.containers[i]`). -/
structure Container where
  name : Option String
  runtimeId : Option String
  image : Option String
deriving DecidableEq, Repr

/-- A per-task container override (`overrides.containerOverrides[i]`). -/
structure ContainerOverride where
  name : Option String
  environment : Option (List KeyValuePair)
deriving DecidableEq, Repr

/-- `task.overrides`. -/
structure TaskOverrides where
  containerOverrides : Option (List ContainerOverride)
deriving DecidableEq, Repr

/-- A described ECS task, restricted to the fields the embedded code
reads. -/
structure Task where
  taskArn : Option String
  taskDefinitionArn : Option String
  containers : Option (List Container)
  overrides : Option TaskOverrides
deriving DecidableEq, Repr

/-- A container definition inside a task definition
(`taskDefinition.containerDefinitions[i]`). -/
structure ContainerDefinition where
  name : Option String
  environment : Option (List KeyValuePair)
deriving DecidableEq, Repr

/-- The task definition returned by `DescribeTaskDefinitionCommand`. -/
structure TaskDefinition where
  containerDefinitions : Option (List ContainerDefinition)
deriving DecidableEq, Repr

/-- `resolveContainer` (target.ts:234-276). `taskDetails` is the result of
the fresh bulk describe of the selected task; `pick` is the `select`
oracle, applied to the `{runtimeId, name}` values the source builds from
the containers. -/
def resolveContainer (s : TargetResolverState) (m : Mediator)
    (taskDetails : List Task)
    (pick : List (Option String × Option String) → Option String × Option String) :
    Except String (TargetResolverState × Mediator) :=
  match failIfClusterNameIsNotSet s with
  | .error e => .error e
  | .ok _ =>
  match failIfTaskIdIsNotSet s with
  | .error e => .error e
  | .ok _ =>
  if taskDetails.length = 0 then
    .error targetText.TASK_NOT_FOUND
  else
    let task := taskDetails[0]?.getD ⟨none, none, none, none⟩
    match task.containers with
    | none => .error targetText.NO_CONTAINERS_IN_TASK
    | some containers =>
      if containers.length = 0 then
        .error targetText.NO_CONTAINERS_IN_TASK
      else if containers.length = 1 then
        let c := containers[0]?.getD ⟨none, none, none⟩
        .ok ({ s with containerRuntimeId := c.runtimeId },
          { m with
              processedArgs := jsSet m.processedArgs "container" ⟨true, c.name⟩,
              target := { m.target with containerName := c.name } })
      else
        let chosen := pick (containers.map (fun c => (c.runtimeId, c.name)))
        .ok ({ s with containerRuntimeId := chosen.1 },
          { m with
              processedArgs := jsSet m.processedArgs "container" ⟨false, chosen.2⟩,
              target := { m.target with containerName := chosen.2 } })

/-! ## ForwardingParamsResolver (`src/lib/resolver/forwardingParams.ts`) -/

/-- The private fields of a `ForwardingParamsResolver` instance. -/
structure FPState where
  dbHost : Option String
  port : Option String
  localPort : Option String
deriving DecidableEq, Repr

/-- The `ForwardingParams` payload type (forwardingParams.ts:8-12): each
field is a list of strings — the wire format wants single-element lists.
The source serializes this record with `JSON.stringify`; the embedding
keeps the record itself. -/
structure ForwardingParams where
  host : List String
  portNumber : List String
  localPortNumber : List String
deriving DecidableEq, Repr

/-- The `forwardingParams` getter (forwardingParams.ts:31-52): checks the
DB host, then the remote port, then the local port, and returns the
payload with each resolved value wrapped in a singleton list. -/
def FPState.forwardingParams (fp : FPState) : Except String ForwardingParams :=
  if !truthy fp.dbHost then
    .error "DB host is not set. Did you run `resolveDbHost()` first?"
  else if !truthy fp.port then
    .error "DB port is not set. Did you run `resolveRemotePort()` first?"
  else if !truthy fp.localPort then
    .error "Local port is not set. Did you run `resolveLocalPort()` first?"
  else
    .ok { host := [jsStr fp.dbHost], portNumber := [jsStr fp.port],
          localPortNumber := [jsStr fp.localPort] }

namespace forwarderText

def CLUSTER_NOT_RESOLVED : String :=
  "Cluster name was not resolved prior to resolving the DB host through container ENV"

def CONTAINER_NOT_RESOLVED : String :=
  "Container name was not resolved prior to resolving the DB host through container ENV"

def TASKDEF_NOT_RESOLVED : String :=
  "Task definition or ID were not resolved prior to resolving the DB host through container ENV"

/-- The message thrown when the looked-up variable is absent from (or bound
to a falsy value in) the effective container environment
(forwardingParams.ts:114-116). -/
def envVarMissing (varToLookup : String) : String :=
  "Container ENV (and ENV overrides) doesn't have an ENV variable with the name '"
    ++ varToLookup ++ "'"

end forwarderText

/-- The `reduce` of forwardingParams.ts:77-80 and 88-91: a `{name, value}`
pair list folded into a JavaScript object, later pairs overwriting earlier
ones on the same name. -/
def envPairsToObj (pairs : List KeyValuePair) : List (String × String) :=
  pairs.foldl (fun acc p => jsSet acc p.name p.value) []

/-- The object literal `{...a, ...b}` (forwardingParams.ts:92-95): a fresh
object receiving all of `a`'s properties, then all of `b`'s. -/
def jsSpread (a b : List (String × String)) : List (String × String) :=
  b.foldl (fun acc p => jsSet acc p.1 p.2)
    (a.foldl (fun acc p => jsSet acc p.1 p.2) [])

/-- `getContainerEnv` (forwardingParams.ts:53-96). `taskDefinition` is the
`taskDefinition` field of the `DescribeTaskDefinitionCommand` response and
`describedTasks` the bulk describe of the target task (the paginated
describe never returns an empty list — it throws instead — so the
source's `[0]` access is embedded as an optional head). -/
def getContainerEnv (target : MediatorTarget)
    (taskDefinition : Option TaskDefinition) (describedTasks : List Task) :
    Except String (List (String × String)) :=
  if !truthy target.clusterName then
    .error forwarderText.CLUSTER_NOT_RESOLVED
  else if !truthy target.containerName then
    .error forwarderText.CONTAINER_NOT_RESOLVED
  else if !truthy target.taskDefinition || !truthy target.taskId then
    .error forwarderText.TASKDEF_NOT_RESOLVED
  else
    let containerEnv : Option (List (String × String)) :=
      (taskDefinition.bind (fun td => td.containerDefinitions)).bind
        (fun defs =>
          (defs.find? (fun c => c.name == target.containerName)).bind
            (fun c => c.environment.map envPairsToObj))
    let envOverrides : Option (List (String × String)) :=
      ((describedTasks.head?.bind (fun t => t.overrides)).bind
          (fun o => o.containerOverrides)).bind
        (fun ovs =>
          (ovs.find? (fun o => o.name == target.containerName)).bind
            (fun o => o.environment.map envPairsToObj))
    .ok (jsSpread (containerEnv.getD []) (envOverrides.getD []))

/-- `resolveDbHost` (forwardingParams.ts:98-164). Besides the describe
results handed to `getContainerEnv`, the interactive oracles are:
`proceedWithEnv` — the answer to the "look it up in the container ENV?"
confirmation; `hostRank` — the `Fuse` ranking of the environment's keys
against the query `"HOST"` (threshold 1, so every key is a match);
`pickEnvKey` — which ranked key the user selects (the prompt's stored
value is that key's environment value); `typedHost` — the free-text host
the user would type. -/
def resolveDbHost (fp : FPState) (m : Mediator)
    (taskDefinition : Option TaskDefinition) (describedTasks : List Task)
    (proceedWithEnv : Bool) (hostRank : List String → List String)
    (pickEnvKey : List String → String) (typedHost : String) :
    Except String (FPState × Mediator) :=
  if truthy m.rawArgs.dbHost then
    let v := m.rawArgs.dbHost
    let entry : Arg := ⟨false, v⟩
    .ok ({ fp with dbHost := v },
      { m with processedArgs := jsSet m.processedArgs "db-host" entry })
  else if truthy m.rawArgs.dbHostFromContainerEnv then
    let varToLookup := jsStr m.rawArgs.dbHostFromContainerEnv
    match getContainerEnv m.target taskDefinition describedTasks with
    | .error e => .error e
    | .ok containerEnv =>
      if !truthy (jsGet containerEnv varToLookup) then
        .error (forwarderText.envVarMissing varToLookup)
      else
        let v := jsGet containerEnv varToLookup
        let entry : Arg := ⟨false, v⟩
        .ok ({ fp with dbHost := v },
          { m with processedArgs := jsSet m.processedArgs "db-host" entry })
  else if proceedWithEnv then
    match getContainerEnv m.target taskDefinition describedTasks with
    | .error e => .error e
    | .ok containerEnv =>
      if (containerEnv.map (fun p => p.1)).length = 0 then
        -- "😿 The target container doesn't have ENV defined": fall through
        -- to the free-text input below.
        let v := some typedHost
        let entry : Arg := ⟨false, v⟩
        .ok ({ fp with dbHost := v },
          { m with processedArgs := jsSet m.processedArgs "db-host" entry })
      else
        let sortedEnv := hostRank (containerEnv.map (fun p => p.1))
        let v := jsGet containerEnv (pickEnvKey sortedEnv)
        let entry : Arg := ⟨false, v⟩
        .ok ({ fp with dbHost := v },
          { m with processedArgs := jsSet m.processedArgs "db-host" entry })
  else
    let v := some typedHost
    let entry : Arg := ⟨false, v⟩
    .ok ({ fp with dbHost := v },
      { m with processedArgs := jsSet m.processedArgs "db-host" entry })

/-! ## CliManager (`src/lib/cli/cli.ts`) -/

def NO_RESOLVER_DATA : String :=
  "There is no collected argument data from resolvers"

/-- The two formats `formatCliArgs` accepts; `onlyRequired` is the source's
`'only-required'`. -/
inductive FormatMode where
  | full
  | onlyRequired
deriving DecidableEq, Repr

/-- The `equivalent` getter (cli.ts:70-78): the processed-args map, or a
failure when nothing has been resolved yet. -/
def equivalent (processedArgs : List (String × Arg)) :
    Except String (List (String × Arg)) :=
  if processedArgs.length = 0 then .error NO_RESOLVER_DATA
  else .ok processedArgs

/-- The token list `formatCliArgs` builds with its `reduce`
(cli.ts:86-91): entries with a falsy value are always skipped, and in
`only-required` format skippable entries are skipped too. -/
def cliArgTokens (entries : List (String × Arg)) (format : FormatMode) :
    List String :=
  entries.foldl (fun acc p =>
    if !truthy p.2.value || (format == .onlyRequired && p.2.skippable) then acc
    else acc ++ ["\t--" ++ p.1 ++ " " ++ jsStr p.2.value]) []

/-- `formatCliArgs` (cli.ts:85-93). -/
def formatCliArgs (processedArgs : List (String × Arg)) (format : FormatMode) :
    Except String String :=
  match equivalent processedArgs with
  | .error e => .error e
  | .ok entries => .ok (joinSep " \\\n" (cliArgTokens entries format))

/-! ## The batching describe client (`src/lib/client/index.ts`) -/

/-- The externally imposed ceiling on identifiers per describe request
(client/index.ts:32). -/
def DESCRIBE_TASKS_MAX_ARNS : Nat := 100

/-- `RawDescribeTasksInput` (client/util section). -/
structure RawDescribeTasksInput where
  taskArns : List String
  clusterName : String
deriving DecidableEq, Repr

/-- One entry of a `DescribeTasksCommand` response's `failures` list. -/
structure Failure where
  arn : Option String
  reason : Option String
  detail : Option String
deriving DecidableEq, Repr

/-- The fields of a `DescribeTasksCommand` response the source reads. -/
structure DescribeTasksResponse where
  tasks : Option (List Task)
  failures : Option (List Failure)
deriving DecidableEq, Repr

/-- Minimal JSON string escaping (backslash and double quote), standing in
for the escaping `JSON.stringify` applies. -/
def jsonEscape (s : String) : String :=
  s.foldl (fun acc c =>
    if c = '\\' then acc ++ "\\\\"
    else if c = '"' then acc ++ "\\\""
    else acc ++ String.singleton c) ""

/-- The present fields of one failure, rendered as JSON members in the
`arn`, `reason`, `detail` order of the embedded `Failure` record. -/
def jsonFailureFields (f : Failure) : List String :=
  (match f.arn with
    | some a => ["\"arn\": \"" ++ jsonEscape a ++ "\""]
    | none => []) ++
  (match f.reason with
    | some r => ["\"reason\": \"" ++ jsonEscape r ++ "\""]
    | none => []) ++
  (match f.detail with
    | some d => ["\"detail\": \"" ++ jsonEscape d ++ "\""]
    | none => [])

/-- Stands for `JSON.stringify(failures, undefined, 2)`
(client/index.ts:118-122). `JSON.stringify` is a JavaScript builtin (an
external collaborator); the embedding renders the same information —
every present field of every failure, in order — without reproducing the
builtin's exact 2-space pretty-printing. -/
def jsonStringifyFailures (failures : List Failure) : String :=
  "[" ++ joinSep ", "
    (failures.map (fun f =>
      "\x7b " ++ joinSep ", " (jsonFailureFields f) ++ " \x7d"))
    ++ "]"

/-- The message of the error thrown on a partial batch failure
(client/index.ts:117-123). -/
def describeTasksFailureMessage (failures : List Failure) : String :=
  "Failed to describe some tasks: " ++ jsonStringifyFailures failures

/-- The message of the error thrown when a batch response carries no tasks
(client/index.ts:126). -/
def NO_TASKS_RETURNED : String := "No tasks were returned by AWS API"

/-- `getBatch` (client/index.ts:96-101) as the list of batches the
generator yields: it copies the input (`Array.from`) and repeatedly
`splice`s the first `size` elements off the copy. For `size = 0` and a
non-empty input the source's generator would yield empty batches forever;
every call site passes a positive size (the default is
`DESCRIBE_TASKS_MAX_ARNS`), and the embedding returns `[]` on that
unreached input to stay total. -/
def getBatch (arns : List String) (size : Nat) : List (List String) :=
  if h : size = 0 ∨ arns = [] then []
  else arns.take size :: getBatch (arns.drop size) size
termination_by arns.length
decreasing_by
  simp only [List.length_drop]
  have h1 : ¬size = 0 := fun hs => h (Or.inl hs)
  have h2 : ¬arns = [] := fun ha => h (Or.inr ha)
  have h3 : 0 < arns.length := List.length_pos.mpr h2
  omega

/-- The per-batch checks of `paginateDescribeTasksRequest`
(client/index.ts:115-128): a response whose `failures` list is present and
non-empty throws with the serialized failures; then a response with no
(or zero) tasks throws `NO_TASKS_RETURNED`; otherwise the batch's tasks
are accumulated. -/
def checkResponse (resp : DescribeTasksResponse) : Except String (List Task) :=
  if 0 < (resp.failures.getD []).length then
    .error (describeTasksFailureMessage (resp.failures.getD []))
  else
    match resp.tasks with
    | none => .error NO_TASKS_RETURNED
    | some ts => if ts.length = 0 then .error NO_TASKS_RETURNED else .ok ts

/-- The `for (const batch of getBatch(...))` loop of
`paginateDescribeTasksRequest` (client/index.ts:110-129), instrumented
with the list of batch requests actually issued: each pending batch is
sent exactly once; on the first failing batch the loop stops (the thrown
error propagates, later batches are never sent). -/
def processBatches (send : List String → String → DescribeTasksResponse)
    (clusterName : String) :
    List (List String) → List (List String) × Except String (List Task)
  | [] => ([], .ok [])
  | batch :: rest =>
    match checkResponse (send batch clusterName) with
    | .error e => ([batch], .error e)
    | .ok ts =>
      let (trace, result) := processBatches send clusterName rest
      (batch :: trace, result.map (fun more => ts ++ more))

/-- `paginateDescribeTasksRequest` (client/index.ts:103-131), with the
remote `client.send` of a `DescribeTasksCommand {tasks, cluster}` passed
in as `send`. Returns the issued batch requests alongside the outcome. -/
def paginateDescribeTasksRequest
    (send : List String → String → DescribeTasksResponse)
    (rawInput : RawDescribeTasksInput) (batchSize : Nat) :
    List (List String) × Except String (List Task) :=
  processBatches send rawInput.clusterName
    (getBatch rawInput.taskArns batchSize)

/-! ## A store model of the same client, for the aliasing property

JavaScript arrays are heap references: `getBatch` receives the caller's
`taskArns` array itself, and its `splice` calls mutate whatever array
object they run on. To state that the caller's array survives the bulk
describe unchanged, the functions above are replayed over an explicit
store of array cells. -/

/-- A heap of JavaScript array-of-string objects: cells `0, ..., next - 1`
are allocated. -/
structure Store where
  next : Nat
  mem : Nat → List String

/-- Read an array cell. -/
def Store.read (σ : Store) (r : Nat) : List String := σ.mem r

/-- Overwrite an array cell in place. -/
def Store.write (σ : Store) (r : Nat) (v : List String) : Store :=
  { σ with mem := fun x => if x = r then v else σ.mem x }

/-- `Array.from(a)`: allocate a fresh array with `a`'s current contents. -/
def Store.alloc (σ : Store) (v : List String) : Store × Nat :=
  ({ next := σ.next + 1, mem := fun x => if x = σ.next then v else σ.mem x },
    σ.next)

/-- `a.splice(0, size)` on the cell `r`: removes the first `size` elements
in place and returns them. -/
def Store.spliceFirst (σ : Store) (r : Nat) (size : Nat) :
    Store × List String :=
  (σ.write r ((σ.read r).drop size), (σ.read r).take size)

/-- The describe loop driving the generator lazily over the store: while
the generator's copy cell is non-empty, splice one batch off it, send it,
and stop at the first failing response. Mirrors
`paginateDescribeTasksRequest`'s `for`-loop over `getBatch`
(client/index.ts:96-131); the `size = 0` guard covers the same unreached
divergence as in `getBatch`. -/
def describeLoop (send : List String → String → DescribeTasksResponse)
    (clusterName : String) (size : Nat) (σ : Store) (copyRef : Nat)
    (acc : List Task) :
    Store × (List (List String) × Except String (List Task)) :=
  if h : size = 0 ∨ σ.read copyRef = [] then (σ, ([], .ok acc))
  else
    -- `arnsCopy.splice(0, size)`: drop the first `size` elements in place,
    -- the removed prefix is the yielded batch.
    match checkResponse (send ((σ.read copyRef).take size) clusterName) with
    | .error e =>
      (σ.write copyRef ((σ.read copyRef).drop size),
        ([(σ.read copyRef).take size], .error e))
    | .ok ts =>
      let rest := describeLoop send clusterName size
        (σ.write copyRef ((σ.read copyRef).drop size)) copyRef (acc ++ ts)
      (rest.1, ((σ.read copyRef).take size :: rest.2.1, rest.2.2))
termination_by (σ.read copyRef).length
decreasing_by
  have h1 : ¬size = 0 := fun hs => h (Or.inl hs)
  have h2 : ¬σ.read copyRef = [] := fun ha => h (Or.inr ha)
  have h3 : 0 < (σ.read copyRef).length := List.length_pos.mpr h2
  simp [Store.write, Store.read] at h3 ⊢
  omega

/-- `paginateDescribeTasksRequest` over the store: the input is the
caller's array cell `taskArnsRef`; `Array.from` copies it into a fresh
cell, and the generator's `splice`s consume only the copy. -/
def paginateDescribeTasksRequestST
    (send : List String → String → DescribeTasksResponse) (σ : Store)
    (taskArnsRef : Nat) (clusterName : String) (size : Nat) :
    Store × (List (List String) × Except String (List Task)) :=
  let allocd := σ.alloc (σ.read taskArnsRef)
  describeLoop send clusterName size allocd.1 allocd.2 []

/-! ## Characterization helpers and concrete scenario inputs

These definitions are not translations of source functions; they name the
shapes the verified properties talk about (last-binding-wins lookup in a
pair list, the entries the CLI formatter renders) and concrete remote
entities for end-to-end scenarios. -/

/-- The value of the last pair bound to `k` in a pair list (later pairs
win), if any — the lookup semantics an environment pair list acquires
once it is reduced into a JavaScript object. -/
def lastVal : List (String × String) → String → Option String
  | [], _ => none
  | p :: t, k =>
    match lastVal t k with
    | some v => some v
    | none => if p.1 = k then some p.2 else none

/-- The entries `cliArgTokens` renders in the given format: those with a
truthy value, minus — in `only-required` format — the skippable ones. -/
def renderedEntries (entries : List (String × Arg)) (format : FormatMode) :
    List (String × Arg) :=
  entries.filter
    (fun p => truthy p.2.value && !(format == FormatMode.onlyRequired && p.2.skippable))

/-- The keys of the entries `cliArgTokens` renders. -/
def renderedKeys (entries : List (String × Arg)) (format : FormatMode) :
    List String :=
  (renderedEntries entries format).map (fun p => p.1)

/-- A resolved mediator target used by the container-environment
scenarios: cluster `c0`, task `task0`, task definition `td0`, container
`app`. -/
def envTarget : MediatorTarget :=
  { taskId := some "task0", taskDefinition := some "td0",
    containerName := some "app", clusterName := some "c0" }

/-- A task definition whose single container `app` carries the given
static environment pairs. -/
def envTaskDefinition (pairs : List KeyValuePair) : TaskDefinition :=
  { containerDefinitions :=
      some [{ name := some "app", environment := some pairs }] }

/-- A described task whose single container-override for `app` carries the
given environment pairs. -/
def envTask (pairs : List KeyValuePair) : Task :=
  { taskArn := some "arn:aws:ecs:r:a:task/c0/task0",
    taskDefinitionArn := some "td0",
    containers := some [⟨some "app", some "rt0", some "img"⟩],
    overrides := some { containerOverrides := some [{ name := some "app", environment := some pairs }] } }

/-- Raw CLI arguments that request DB-host resolution through the
container environment variable `DB_HOST`. -/
def envScenarioRawArgs : RawArgs :=
  { cluster := none, service := none, container := none, dbHost := none,
    dbHostFromContainerEnv := some "DB_HOST", port := none,
    localPort := none, profile := none, region := none }

/-- The mediator of the `db-host-from-container-env=DB_HOST` scenario. -/
def envScenarioMediator : Mediator :=
  { processedArgs := [], rawArgs := envScenarioRawArgs, target := envTarget,
    verbose := false }

/-! ## General lemmas about the JavaScript-object model -/

theorem truthy_some_of_ne {s : String} (h : s ≠ "") : truthy (some s) = true := by
  simp [truthy, h]

theorem truthy_eq_true_iff (x : Option String) :
    truthy x = true ↔ ∃ s, x = some s ∧ s ≠ "" := by
  cases x with
  | none => simp [truthy]
  | some s => simp [truthy]

/-- Overwriting the pairs keyed `k` inside an object: key `k` now reads the
new value if it was present, other keys are unchanged. -/
theorem jsGet_overwrite {α : Type} (m : List (String × α)) (k : String) (v : α)
    (k' : String) :
    jsGet (m.map (fun p => if p.1 = k then (k, v) else p)) k' =
      if k' = k then (jsGet m k).map (fun _ => v) else jsGet m k' := by
  induction m with
  | nil => by_cases hk : k' = k <;> simp [jsGet, hk]
  | cons p t ih =>
    by_cases hp : p.1 = k
    · by_cases hk : k' = k
      · subst hk; simp [jsGet, hp]
      · have hpk' : ¬p.1 = k' := fun h => hk (h.symm.trans hp)
        have hkk' : ¬k = k' := fun h => hk h.symm
        simp [jsGet, hp, hk, hpk', hkk', ih]
    · by_cases hpk' : p.1 = k'
      · have hk : ¬k' = k := fun h => hp (hpk'.trans h)
        simp [jsGet, hp, hpk', hk]
      · simp [jsGet, hp, hpk', ih]

/-- Appending a fresh pair: key `k` reads the appended value when it was
absent, keys present in `m` are unchanged. -/
theorem jsGet_append_single {α : Type} (m : List (String × α)) (k : String)
    (v : α) (k' : String) :
    jsGet (m ++ [(k, v)]) k' =
      match jsGet m k' with
      | some x => some x
      | none => if k = k' then some v else none := by
  induction m with
  | nil => simp [jsGet]
  | cons p t ih =>
    by_cases hp : p.1 = k'
    · simp [jsGet, hp]
    · simp [jsGet, hp, ih]

/-- Reading back through a property write: the written key now holds the
written value, every other key is untouched. -/
theorem jsGet_jsSet {α : Type} (m : List (String × α)) (k : String) (v : α)
    (k' : String) :
    jsGet (jsSet m k v) k' = if k' = k then some v else jsGet m k' := by
  by_cases hmem : (jsGet m k).isSome
  · rw [jsSet, if_pos hmem, jsGet_overwrite]
    by_cases hk : k' = k
    · subst hk
      obtain ⟨x, hx⟩ := Option.isSome_iff_exists.mp hmem
      simp [hx]
    · simp [hk]
  · rw [jsSet, if_neg hmem, jsGet_append_single]
    have hnone : jsGet m k = none := by
      cases h : jsGet m k <;> simp [h] at hmem ⊢
    by_cases hk : k' = k
    · subst hk; simp [hnone]
    · have h1 : ¬k = k' := fun h => hk h.symm
      cases h : jsGet m k' <;> simp [h, h1, hk]

/-- `find?` with an equality-to-`a` test finds `a` itself whenever `a` is
in the list. -/
theorem find?_beq_of_mem {α : Type} [BEq α] [LawfulBEq α] {l : List α} {a : α}
    (h : a ∈ l) : l.find? (fun x => x == a) = some a := by
  induction l with
  | nil => simp at h
  | cons x t ih =>
    by_cases hx : x = a
    · subst hx; simp [List.find?_cons]
    · have hb : (x == a) = false := by simp [hx]
      rcases List.mem_cons.mp h with h1 | h2
      · exact absurd h1.symm hx
      · simp [List.find?_cons, hb, ih h2]

/-- `find?` with an equality-to-`a` test finds nothing when `a` is not in
the list. -/
theorem find?_beq_of_not_mem {α : Type} [BEq α] [LawfulBEq α] {l : List α}
    {a : α} (h : a ∉ l) : l.find? (fun x => x == a) = none := by
  refine List.find?_eq_none.mpr (fun x hx => ?_)
  intro hbeq
  exact h (by simpa using (eq_of_beq hbeq) ▸ hx)

/-! ## C1: the `target` getter -/

/-- **C1.** Reading `TargetResolver.target` succeeds exactly when the
cluster name, the task ID and the container runtime ID are all set (a
field counts as set when it holds a non-empty string, which is how the
source's falsy-guards treat it), and then returns
`ecs:<cluster>_<taskId>_<containerRuntimeId>`. If a piece is missing the
getter fails with the error naming it, checking the cluster first, then
the task, then the container runtime ID. The runtime ID that ends up in
the descriptor is the one `resolveContainer` stores from the container's
`runtimeId` field — the container's `name` goes only to the mediator's
replay record — so the descriptor carries the runtime identifier, not the
container's static name. -/
theorem C1_target_getter (s : TargetResolverState) :
    (s.target.isOk =
      (truthy s.clusterName && truthy s.taskId && truthy s.containerRuntimeId)) ∧
    (∀ c t r, s.clusterName = some c → s.taskId = some t →
      s.containerRuntimeId = some r → c ≠ "" → t ≠ "" → r ≠ "" →
      s.target = .ok ("ecs:" ++ c ++ "_" ++ t ++ "_" ++ r)) ∧
    (truthy s.clusterName = false →
      s.target = .error targetText.CLUSTER_NOT_RESOLVED) ∧
    (truthy s.clusterName = true → truthy s.taskId = false →
      s.target = .error targetText.TASK_ID_NOT_RESOLVED) ∧
    (truthy s.clusterName = true → truthy s.taskId = true →
      truthy s.containerRuntimeId = false →
      s.target = .error targetText.CONTAINER_NOT_RESOLVED) ∧
    (∀ (m : Mediator) (task : Task) (c : Container)
        (pick : List (Option String × Option String) →
          Option String × Option String),
      truthy s.clusterName = true → truthy s.taskId = true →
      task.containers = some [c] →
      resolveContainer s m [task] pick =
        .ok ({ s with containerRuntimeId := c.runtimeId },
          { m with
              processedArgs := jsSet m.processedArgs "container" ⟨true, c.name⟩,
              target := { m.target with containerName := c.name } })) ∧
    (∀ (r : String), truthy s.clusterName = true → truthy s.taskId = true →
      r ≠ "" →
      TargetResolverState.target { s with containerRuntimeId := some r } =
        .ok ("ecs:" ++ jsStr s.clusterName ++ "_" ++ jsStr s.taskId ++ "_" ++ r)) := by
  refine ⟨?_, ?_, ?_, ?_, ?_, ?_, ?_⟩
  · cases hc : truthy s.clusterName <;>
      cases ht : truthy s.taskId <;>
        cases hr : truthy s.containerRuntimeId <;>
          simp [TargetResolverState.target, failIfClusterNameIsNotSet,
            failIfTaskIdIsNotSet, hc, ht, hr, Except.isOk, Except.toBool]
  · intro c t r hc ht hr hcne htne hrne
    have hct := truthy_some_of_ne hcne
    have htt := truthy_some_of_ne htne
    have hrt := truthy_some_of_ne hrne
    simp [TargetResolverState.target, failIfClusterNameIsNotSet,
      failIfTaskIdIsNotSet, hc, ht, hr, hct, htt, hrt, jsStr]
  · intro hc
    simp [TargetResolverState.target, failIfClusterNameIsNotSet, hc]
  · intro hc ht
    simp [TargetResolverState.target, failIfClusterNameIsNotSet,
      failIfTaskIdIsNotSet, hc, ht]
  · intro hc ht hr
    simp [TargetResolverState.target, failIfClusterNameIsNotSet,
      failIfTaskIdIsNotSet, hc, ht, hr]
  · intro m task c pick hc ht htask
    simp [resolveContainer, failIfClusterNameIsNotSet, failIfTaskIdIsNotSet,
      hc, ht, htask]
  · intro r hc ht hrne
    have hrt := truthy_some_of_ne hrne
    simp [TargetResolverState.target, failIfClusterNameIsNotSet,
      failIfTaskIdIsNotSet, hc, ht, hrt, jsStr]

/-! ## C3: the `forwardingParams` getter -/

/-- **C3.** Reading `forwardingParams` succeeds exactly when the DB host,
the remote port and the local port are all resolved (hold a non-empty
string — the source's falsy-guards), and then the payload's `host`,
`portNumber` and `localPortNumber` fields are each the single-element
array of the resolved value. Reading earlier fails with the error naming
the specific unresolved field, checking the host first, then the remote
port, then the local port. -/
theorem C3_forwardingParams_getter (fp : FPState) :
    (fp.forwardingParams.isOk =
      (truthy fp.dbHost && truthy fp.port && truthy fp.localPort)) ∧
    (∀ h p l, fp.dbHost = some h → fp.port = some p → fp.localPort = some l →
      h ≠ "" → p ≠ "" → l ≠ "" →
      fp.forwardingParams = .ok ⟨[h], [p], [l]⟩) ∧
    (truthy fp.dbHost = false →
      fp.forwardingParams =
        .error "DB host is not set. Did you run `resolveDbHost()` first?") ∧
    (truthy fp.dbHost = true → truthy fp.port = false →
      fp.forwardingParams =
        .error "DB port is not set. Did you run `resolveRemotePort()` first?") ∧
    (truthy fp.dbHost = true → truthy fp.port = true →
      truthy fp.localPort = false →
      fp.forwardingParams =
        .error "Local port is not set. Did you run `resolveLocalPort()` first?") := by
  refine ⟨?_, ?_, ?_, ?_, ?_⟩
  · cases hh : truthy fp.dbHost <;>
      cases hp : truthy fp.port <;>
        cases hl : truthy fp.localPort <;>
          simp [FPState.forwardingParams, hh, hp, hl, Except.isOk, Except.toBool]
  · intro h p l hh hp hl hhne hpne hlne
    have hht := truthy_some_of_ne hhne
    have hpt := truthy_some_of_ne hpne
    have hlt := truthy_some_of_ne hlne
    simp [FPState.forwardingParams, hh, hp, hl, hht, hpt, hlt, jsStr]
  · intro hh
    simp [FPState.forwardingParams, hh]
  · intro hh hp
    simp [FPState.forwardingParams, hh, hp]
  · intro hh hp hl
    simp [FPState.forwardingParams, hh, hp, hl]

/-! ## C4: cluster resolution trichotomy -/

/-- **C4.** `resolveCluster` is a trichotomy on the listed clusters: zero
clusters fail with `NoClustersFound` (`targetText.NO_CLUSTERS`); exactly
one cluster is selected automatically — no prompt — and recorded with
`skippable = true`; two or more clusters issue a `select` prompt over the
cluster short names (the `split('/')[1]` segment of each ARN) and record
the chosen name with `skippable = false`. -/
theorem C4_resolveCluster_trichotomy (s : TargetResolverState) (m : Mediator)
    (arns : List String) (pick : List (Option String) → Option String) :
    (arns = [] →
      resolveCluster s m arns pick = ([], .error targetText.NO_CLUSTERS)) ∧
    (∀ a, arns = [a] →
      ∃ s' m', resolveCluster s m arns pick = ([], .ok (s', m')) ∧
        s'.clusterName = jsSplitAt a "/" 1 ∧
        jsGet m'.processedArgs "cluster" = some ⟨true, jsSplitAt a "/" 1⟩ ∧
        m'.target.clusterName = jsSplitAt a "/" 1) ∧
    (2 ≤ arns.length →
      ∃ s' m',
        resolveCluster s m arns pick =
          ([.selected (arns.map (fun arn => jsSplitAt arn "/" 1))
              (pick (arns.map (fun arn => jsSplitAt arn "/" 1)))],
            .ok (s', m')) ∧
        s'.clusterName = pick (arns.map (fun arn => jsSplitAt arn "/" 1)) ∧
        jsGet m'.processedArgs "cluster" =
          some ⟨false, pick (arns.map (fun arn => jsSplitAt arn "/" 1))⟩ ∧
        m'.target.clusterName =
          pick (arns.map (fun arn => jsSplitAt arn "/" 1))) := by
  refine ⟨?_, ?_, ?_⟩
  · intro h; subst h; simp [resolveCluster]
  · intro a h; subst h
    have heq : resolveCluster s m [a] pick = ([], .ok
        ({ s with clusterName := jsSplitAt a "/" 1 },
          { m with
              processedArgs :=
                jsSet m.processedArgs "cluster" ⟨true, jsSplitAt a "/" 1⟩,
              target := { m.target with clusterName := jsSplitAt a "/" 1 } })) := by
      simp [resolveCluster]
    exact ⟨_, _, heq, rfl, by rw [jsGet_jsSet]; simp, rfl⟩
  · intro h
    have h0 : ¬arns.length = 0 := by omega
    have h1 : ¬arns.length = 1 := by omega
    have heq : resolveCluster s m arns pick =
        ([.selected (arns.map (fun arn => jsSplitAt arn "/" 1))
            (pick (arns.map (fun arn => jsSplitAt arn "/" 1)))],
          .ok ({ s with
              clusterName := pick (arns.map (fun arn => jsSplitAt arn "/" 1)) },
            { m with
                processedArgs := jsSet m.processedArgs "cluster"
                  ⟨false, pick (arns.map (fun arn => jsSplitAt arn "/" 1))⟩,
                target := { m.target with
                  clusterName :=
                    pick (arns.map (fun arn => jsSplitAt arn "/" 1)) } })) := by
      simp [resolveCluster, h0, h1]
    exact ⟨_, _, heq, rfl, by rw [jsGet_jsSet]; simp, rfl⟩

/-! ## C5: service resolution -/

/-- **C5.** `resolveService`: with no hint (or a falsy one) the stage is
skipped, recording a skippable service argument with no value and issuing
no prompt; a hint exactly matching one of the `N` listed service short
names is accepted, recorded with `skippable = true` exactly when `N = 1`
(the count of all services in the cluster, whatever the match mode); with
no exact match and exactly one fuzzy candidate a confirmation is issued
and declining it fails with `FuzzyMatchRejected`
(`targetText.FUZZY_SERVICE_NOT_CONFIRMED`); two or more fuzzy candidates
issue an explicit pick; every fuzzy-derived selection is recorded with
`skippable = false`. -/
theorem C5_resolveService (s : TargetResolverState) (m : Mediator)
    (arns : List String)
    (fuzzy : String → List (Option String) → List (Option String))
    (confirmAnswer : Bool) (pick : List (Option String) → Option String) :
    (∀ hint, truthy s.clusterName = true → truthy hint = false →
      ∃ m', resolveService s m hint arns fuzzy confirmAnswer pick =
          ([], .ok (s, m')) ∧
        jsGet m'.processedArgs "service" = some ⟨true, none⟩) ∧
    (∀ h, truthy s.clusterName = true → h ≠ "" →
      some h ∈ arns.map (fun arn => jsSplitLast arn "/") →
      ∃ s' m', resolveService s m (some h) arns fuzzy confirmAnswer pick =
          ([], .ok (s', m')) ∧
        s'.serviceName = some h ∧
        jsGet m'.processedArgs "service" =
          some ⟨decide ((arns.map (fun arn => jsSplitLast arn "/")).length = 1),
            some h⟩) ∧
    (∀ h cand, truthy s.clusterName = true → h ≠ "" →
      some h ∉ arns.map (fun arn => jsSplitLast arn "/") → arns ≠ [] →
      fuzzy h (arns.map (fun arn => jsSplitLast arn "/")) = [cand] →
      confirmAnswer = false →
      resolveService s m (some h) arns fuzzy confirmAnswer pick =
        ([.confirmed (targetText.CONFIRM_FUZZY_SERVICE ++ " (service: " ++
            jsStr cand ++ ")") false],
          .error targetText.FUZZY_SERVICE_NOT_CONFIRMED)) ∧
    (∀ h cand, truthy s.clusterName = true → h ≠ "" →
      some h ∉ arns.map (fun arn => jsSplitLast arn "/") → arns ≠ [] →
      fuzzy h (arns.map (fun arn => jsSplitLast arn "/")) = [cand] →
      confirmAnswer = true →
      ∃ s' m', resolveService s m (some h) arns fuzzy confirmAnswer pick =
          ([.confirmed (targetText.CONFIRM_FUZZY_SERVICE ++ " (service: " ++
              jsStr cand ++ ")") true],
            .ok (s', m')) ∧
        s'.serviceName = cand ∧
        jsGet m'.processedArgs "service" = some ⟨false, cand⟩) ∧
    (∀ h cands, truthy s.clusterName = true → h ≠ "" →
      some h ∉ arns.map (fun arn => jsSplitLast arn "/") → arns ≠ [] →
      fuzzy h (arns.map (fun arn => jsSplitLast arn "/")) = cands →
      2 ≤ cands.length →
      ∃ s' m', resolveService s m (some h) arns fuzzy confirmAnswer pick =
          ([.selected cands (pick cands)], .ok (s', m')) ∧
        s'.serviceName = pick cands ∧
        jsGet m'.processedArgs "service" = some ⟨false, pick cands⟩) := by
  refine ⟨?_, ?_, ?_, ?_, ?_⟩
  · intro hint hc hh
    have heq : resolveService s m hint arns fuzzy confirmAnswer pick =
        ([], .ok (s, { m with
          processedArgs := jsSet m.processedArgs "service" ⟨true, none⟩ })) := by
      simp [resolveService, hc, hh]
    exact ⟨_, heq, by rw [jsGet_jsSet]; simp⟩
  · intro h hc hne hmem
    have hht : truthy (some h) = true := truthy_some_of_ne hne
    have hane : ¬arns = [] := by
      intro h0
      subst h0
      simp at hmem
    have hfind := find?_beq_of_mem hmem
    have heq : resolveService s m (some h) arns fuzzy confirmAnswer pick =
        ([], .ok ({ s with serviceName := some h },
          { m with processedArgs := jsSet m.processedArgs "service" ⟨decide ((arns.map (fun arn => jsSplitLast arn "/")).length = 1), some h⟩ })) := by
      simp [resolveService, hc, hht, hane, hfind]
    exact ⟨_, _, heq, rfl, by rw [jsGet_jsSet]; simp⟩
  · intro h cand hc hne hmem hane hfuzzy hconf
    subst hconf
    have hht : truthy (some h) = true := truthy_some_of_ne hne
    have hfind := find?_beq_of_not_mem hmem
    simp [resolveService, hc, hht, hane, hfind, jsStr, hfuzzy]
  · intro h cand hc hne hmem hane hfuzzy hconf
    subst hconf
    have hht : truthy (some h) = true := truthy_some_of_ne hne
    have hfind := find?_beq_of_not_mem hmem
    have heq : resolveService s m (some h) arns fuzzy true pick =
        ([.confirmed (targetText.CONFIRM_FUZZY_SERVICE ++ " (service: " ++
            jsStr cand ++ ")") true],
          .ok ({ s with serviceName := cand },
            { m with processedArgs :=
                jsSet m.processedArgs "service" ⟨false, cand⟩ })) := by
      simp [resolveService, hc, hht, hane, hfind, jsStr, hfuzzy]
    exact ⟨_, _, heq, rfl, by rw [jsGet_jsSet]; simp⟩
  · intro h cands hc hne hmem hane hfuzzy hlen2
    have hht : truthy (some h) = true := truthy_some_of_ne hne
    have hfind := find?_beq_of_not_mem hmem
    have hc0 : ¬cands.length = 0 := by omega
    have hc1 : ¬cands.length = 1 := by omega
    have heq : resolveService s m (some h) arns fuzzy confirmAnswer pick =
        ([.selected cands (pick cands)],
          .ok ({ s with serviceName := pick cands },
            { m with processedArgs :=
                jsSet m.processedArgs "service" ⟨false, pick cands⟩ })) := by
      simp [resolveService, hc, hht, hane, hfind, jsStr, hfuzzy, hc0, hc1]
    exact ⟨_, _, heq, rfl, by rw [jsGet_jsSet]; simp⟩

/-! ## Lemmas on environment objects and spreads -/

theorem jsGet_foldl_jsSet (pairs init : List (String × String)) (k : String) :
    jsGet (pairs.foldl (fun acc p => jsSet acc p.1 p.2) init) k =
      match lastVal pairs k with
      | some v => some v
      | none => jsGet init k := by
  induction pairs generalizing init with
  | nil => simp [lastVal]
  | cons p t ih =>
    simp only [List.foldl_cons, lastVal]
    rw [ih]
    cases h : lastVal t k with
    | some v => simp
    | none =>
      rw [jsGet_jsSet]
      by_cases hk : k = p.1
      · simp [hk]
      · have hpk : ¬p.1 = k := fun hh => hk hh.symm
        simp [hk, hpk]

theorem jsGet_envPairsToObj (pairs : List KeyValuePair) (k : String) :
    jsGet (envPairsToObj pairs) k =
      lastVal (pairs.map (fun p => (p.name, p.value))) k := by
  have hfold : envPairsToObj pairs =
      (pairs.map (fun p => (p.name, p.value))).foldl
        (fun acc p => jsSet acc p.1 p.2) [] := by
    simp [envPairsToObj, List.foldl_map]
  rw [hfold, jsGet_foldl_jsSet]
  cases h : lastVal (pairs.map fun p => (p.name, p.value)) k <;> simp [jsGet]

theorem jsGet_jsSpread (a b : List (String × String)) (k : String) :
    jsGet (jsSpread a b) k =
      match lastVal b k with
      | some v => some v
      | none => lastVal a k := by
  rw [jsSpread, jsGet_foldl_jsSet]
  cases hb : lastVal b k with
  | some v => simp
  | none =>
    rw [jsGet_foldl_jsSet]
    cases ha : lastVal a k <;> simp [jsGet]

theorem lastVal_eq_none_of_not_mem (X : List (String × String)) (k : String)
    (h : k ∉ X.map Prod.fst) : lastVal X k = none := by
  induction X with
  | nil => rfl
  | cons p t ih =>
    simp only [List.map_cons, List.mem_cons] at h
    push_neg at h
    rw [lastVal, ih h.2]
    have hpk : ¬p.1 = k := fun hh => h.1 hh.symm
    simp [hpk]

theorem lastVal_eq_jsGet_of_nodup (X : List (String × String)) (k : String)
    (h : (X.map Prod.fst).Nodup) : lastVal X k = jsGet X k := by
  induction X with
  | nil => rfl
  | cons p t ih =>
    simp only [List.map_cons, List.nodup_cons] at h
    by_cases hp : p.1 = k
    · have hk : k ∉ t.map Prod.fst := hp ▸ h.1
      rw [lastVal, lastVal_eq_none_of_not_mem t k hk]
      simp [jsGet, hp]
    · rw [lastVal, ih h.2]
      cases hg : jsGet t k <;> simp [jsGet, hp, hg]

theorem jsGet_eq_none_iff {α : Type} (m : List (String × α)) (k : String) :
    jsGet m k = none ↔ k ∉ m.map Prod.fst := by
  induction m with
  | nil => simp [jsGet]
  | cons p t ih =>
    by_cases hp : p.1 = k
    · subst hp; simp [jsGet, ih]
    · have hk : ¬k = p.1 := fun hh => hp hh.symm
      simp [jsGet, hp, ih, hk]

theorem keys_nodup_jsSet {α : Type} (m : List (String × α)) (k : String)
    (v : α) (h : (m.map Prod.fst).Nodup) :
    ((jsSet m k v).map Prod.fst).Nodup := by
  by_cases hmem : (jsGet m k).isSome
  · rw [jsSet, if_pos hmem]
    have hkeys : (m.map (fun p => if p.1 = k then (k, v) else p)).map Prod.fst =
        m.map Prod.fst := by
      rw [List.map_map]
      apply List.map_congr_left
      intro p _
      by_cases hpk : p.1 = k <;> simp [hpk]
    rw [hkeys]; exact h
  · rw [jsSet, if_neg hmem]
    have hnone : jsGet m k = none := by
      cases hg : jsGet m k <;> simp [hg] at hmem ⊢
    have hk : k ∉ m.map Prod.fst := (jsGet_eq_none_iff m k).mp hnone
    rw [List.map_append, List.nodup_append]
    refine ⟨h, by simp, ?_⟩
    intro x hx
    simp only [List.map_cons, List.map_nil, List.mem_singleton]
    intro hxk
    subst hxk
    exact hk hx

theorem keys_nodup_foldl (pairs : List (String × String))
    (init : List (String × String)) (h : (init.map Prod.fst).Nodup) :
    ((pairs.foldl (fun acc p => jsSet acc p.1 p.2) init).map Prod.fst).Nodup := by
  induction pairs generalizing init with
  | nil => exact h
  | cons p t ih => exact ih _ (keys_nodup_jsSet init p.1 p.2 h)

theorem envPairsToObj_keys_nodup (pairs : List KeyValuePair) :
    ((envPairsToObj pairs).map Prod.fst).Nodup := by
  have hfold : envPairsToObj pairs =
      (pairs.map (fun p => (p.name, p.value))).foldl
        (fun acc p => jsSet acc p.1 p.2) [] := by
    simp [envPairsToObj, List.foldl_map]
  rw [hfold]
  exact keys_nodup_foldl _ [] (by simp)

theorem jsGet_jsSpread_objects (a b : List (String × String)) (k : String)
    (ha : (a.map Prod.fst).Nodup) (hb : (b.map Prod.fst).Nodup) :
    jsGet (jsSpread a b) k =
      match jsGet b k with
      | some v => some v
      | none => jsGet a k := by
  rw [jsGet_jsSpread, lastVal_eq_jsGet_of_nodup a k ha,
    lastVal_eq_jsGet_of_nodup b k hb]

/-! ## C2: effective container environment -/

/-- **C2.** The effective container environment `getContainerEnv` computes
is the container's static task-definition environment overlaid by the
task's container-level overrides: for every static environment and every
override environment, every key reads the override's value when the
override binds it and the static value otherwise — the override wins on
every collision. In particular, in the end-to-end scenario
`db-host-from-container-env=DB_HOST` with static `{DB_HOST: "a"}` and
override `{DB_HOST: "b"}`, `resolveDbHost` resolves the host to `"b"`. -/
theorem C2_effective_container_env (staticPairs ovrPairs : List KeyValuePair) :
    (getContainerEnv envTarget (some (envTaskDefinition staticPairs))
        [envTask ovrPairs] =
      .ok (jsSpread (envPairsToObj staticPairs) (envPairsToObj ovrPairs))) ∧
    (∀ k, jsGet (jsSpread (envPairsToObj staticPairs) (envPairsToObj ovrPairs)) k =
      match jsGet (envPairsToObj ovrPairs) k with
      | some v => some v
      | none => jsGet (envPairsToObj staticPairs) k) ∧
    (∃ fp' m', resolveDbHost ⟨none, none, none⟩ envScenarioMediator
        (some (envTaskDefinition [⟨"DB_HOST", "a"⟩])) [envTask [⟨"DB_HOST", "b"⟩]]
        false (fun l => l) (fun _ => "") "" = .ok (fp', m') ∧
      fp'.dbHost = some "b" ∧
      jsGet m'.processedArgs "db-host" = some ⟨false, some "b"⟩) := by
  refine ⟨?_, ?_, ?_⟩
  · rfl
  · intro k
    exact jsGet_jsSpread_objects _ _ k (envPairsToObj_keys_nodup staticPairs)
      (envPairsToObj_keys_nodup ovrPairs)
  · exact ⟨⟨some "b", none, none⟩,
      { processedArgs := [("db-host", ⟨false, some "b"⟩)],
        rawArgs := envScenarioRawArgs, target := envTarget, verbose := false },
      rfl, rfl, rfl⟩

/-! ## C10: DB-host resolution through the container environment -/

/-- **C10.** When `resolveDbHost` resolves the host through
`db-host-from-container-env` it records, for replay, a `db-host` entry
holding the looked-up environment value with `skippable = false`; no
branch of `resolveDbHost` ever writes a `db-host-from-container-env`
entry to `processedArgs` (the entry reads back unchanged after any
successful run); and an environment variable bound to the empty string is
treated like an absent one — the lookup fails with the missing-variable
error naming it. -/
theorem C10_resolveDbHost_env_lookup (fp : FPState) (m : Mediator)
    (taskDef : Option TaskDefinition) (tasks : List Task)
    (proceed : Bool) (hostRank : List String → List String)
    (pickKey : List String → String) (typedHost : String) :
    (∀ v env hval, truthy m.rawArgs.dbHost = false →
      m.rawArgs.dbHostFromContainerEnv = some v → v ≠ "" →
      getContainerEnv m.target taskDef tasks = .ok env →
      jsGet env v = some hval → hval ≠ "" →
      ∃ fp' m', resolveDbHost fp m taskDef tasks proceed hostRank pickKey
          typedHost = .ok (fp', m') ∧
        fp'.dbHost = some hval ∧
        jsGet m'.processedArgs "db-host" = some ⟨false, some hval⟩ ∧
        jsGet m'.processedArgs "db-host-from-container-env" =
          jsGet m.processedArgs "db-host-from-container-env") ∧
    (∀ fp' m', resolveDbHost fp m taskDef tasks proceed hostRank pickKey
        typedHost = .ok (fp', m') →
      jsGet m'.processedArgs "db-host-from-container-env" =
        jsGet m.processedArgs "db-host-from-container-env") ∧
    (∀ v env, truthy m.rawArgs.dbHost = false →
      m.rawArgs.dbHostFromContainerEnv = some v → v ≠ "" →
      getContainerEnv m.target taskDef tasks = .ok env →
      jsGet env v = some "" →
      resolveDbHost fp m taskDef tasks proceed hostRank pickKey typedHost =
        .error (forwarderText.envVarMissing v)) := by
  refine ⟨?_, ?_, ?_⟩
  · intro v env hval hraw hflag hvne henv hget hvalne
    have hflagt : truthy m.rawArgs.dbHostFromContainerEnv = true := by
      rw [hflag]; exact truthy_some_of_ne hvne
    have hlookup : truthy (jsGet env (jsStr m.rawArgs.dbHostFromContainerEnv)) = true := by
      rw [hflag]
      simp only [jsStr, hget]
      exact truthy_some_of_ne hvalne
    have heq : resolveDbHost fp m taskDef tasks proceed hostRank pickKey typedHost =
        .ok ({ fp with dbHost := jsGet env (jsStr m.rawArgs.dbHostFromContainerEnv) },
          { m with processedArgs := jsSet m.processedArgs "db-host" ⟨false, jsGet env (jsStr m.rawArgs.dbHostFromContainerEnv)⟩ }) := by
      simp [resolveDbHost, hraw, hflagt, henv, hlookup]
    refine ⟨_, _, heq, ?_, ?_, ?_⟩
    · simp [hflag, jsStr, hget]
    · rw [jsGet_jsSet]
      simp [hflag, jsStr, hget]
    · rw [jsGet_jsSet]
      rw [if_neg (by decide)]
  · intro fp' m' h
    simp only [resolveDbHost] at h
    split at h
    · cases h
      rw [jsGet_jsSet, if_neg (by decide)]
    · split at h
      · split at h
        · cases h
        · split at h
          · cases h
          · cases h
            rw [jsGet_jsSet, if_neg (by decide)]
      · split at h
        · split at h
          · cases h
          · split at h
            · cases h
              rw [jsGet_jsSet, if_neg (by decide)]
            · cases h
              rw [jsGet_jsSet, if_neg (by decide)]
        · cases h
          rw [jsGet_jsSet, if_neg (by decide)]
  · intro v env hraw hflag hvne henv hget
    have hflagt : truthy m.rawArgs.dbHostFromContainerEnv = true := by
      rw [hflag]; exact truthy_some_of_ne hvne
    have hlookup : truthy (jsGet env (jsStr m.rawArgs.dbHostFromContainerEnv)) = false := by
      rw [hflag]
      simp [jsStr, hget, truthy]
    have hvar : jsStr m.rawArgs.dbHostFromContainerEnv = v := by
      rw [hflag]; rfl
    rw [← hvar]
    simp [resolveDbHost, hraw, hflagt, henv, hlookup]

/-! ## C8: the CLI replay formatter -/

theorem cliArgTokens_eq (entries : List (String × Arg)) (format : FormatMode) :
    cliArgTokens entries format =
      (renderedEntries entries format).map
        (fun p => "\t--" ++ p.1 ++ " " ++ jsStr p.2.value) := by
  suffices h : ∀ acc, entries.foldl (fun acc p =>
      if !truthy p.2.value || (format == FormatMode.onlyRequired && p.2.skippable)
      then acc
      else acc ++ ["\t--" ++ p.1 ++ " " ++ jsStr p.2.value]) acc =
      acc ++ (renderedEntries entries format).map
        (fun p => "\t--" ++ p.1 ++ " " ++ jsStr p.2.value) by
    simpa [cliArgTokens] using h []
  induction entries with
  | nil => intro acc; simp [renderedEntries]
  | cons p t ih =>
    intro acc
    cases hb : (!truthy p.2.value ||
        (format == FormatMode.onlyRequired && p.2.skippable)) with
    | true =>
      have hcond : (truthy p.2.value &&
          !(format == FormatMode.onlyRequired && p.2.skippable)) = false := by
        revert hb
        cases truthy p.2.value <;>
          cases (format == FormatMode.onlyRequired && p.2.skippable) <;> simp
      simp only [List.foldl_cons, hb, if_true, ih, renderedEntries,
        List.filter_cons, hcond, if_false]
      rfl
    | false =>
      have hcond : (truthy p.2.value &&
          !(format == FormatMode.onlyRequired && p.2.skippable)) = true := by
        revert hb
        cases truthy p.2.value <;>
          cases (format == FormatMode.onlyRequired && p.2.skippable) <;> simp
      simp only [List.foldl_cons, hb, Bool.false_eq_true, if_false, ih,
        renderedEntries, List.filter_cons, hcond, if_true, List.map_cons]
      simp [List.append_assoc]

/-- With duplicate-free keys (a JavaScript-object invariant), a key
appears under at most one value. -/
theorem mem_unique_of_nodup_keys {α : Type} {pa : List (String × α)}
    (h : (pa.map Prod.fst).Nodup) {k : String} {a b : α}
    (ha : (k, a) ∈ pa) (hb : (k, b) ∈ pa) : a = b := by
  induction pa with
  | nil => simp at ha
  | cons p t ih =>
    simp only [List.map_cons, List.nodup_cons] at h
    rcases List.mem_cons.mp ha with ha1 | ha2 <;>
      rcases List.mem_cons.mp hb with hb1 | hb2
    · rw [← ha1] at hb1; exact (Prod.mk.injEq _ _ _ _ ▸ hb1).2.symm
    · exfalso
      apply h.1
      have hpk : p.1 = k := by rw [← ha1]
      rw [hpk]
      exact List.mem_map.mpr ⟨(k, b), hb2, rfl⟩
    · exfalso
      apply h.1
      have hpk : p.1 = k := by rw [← hb1]
      rw [hpk]
      exact List.mem_map.mpr ⟨(k, a), ha2, rfl⟩
    · exact ih h.2 ha2 hb2

/-- **C8.** For every processed-args state on which both calls succeed
(the map is non-empty; its keys are duplicate-free, as JavaScript object
keys are), `formatCliArgs` renders one `--key value` token per entry with
a truthy (defined, non-empty) value, the keys rendered in `only-required`
format are a subset of those rendered in `full` format, and the keys
present in the `full` output but absent from the `only-required` output
are exactly the entries that are skippable and carry such a defined
value. -/
theorem C8_formatCliArgs_subset (pa : List (String × Arg))
    (hnd : (pa.map Prod.fst).Nodup) (hne : pa ≠ []) :
    (∀ format, formatCliArgs pa format =
      .ok (joinSep " \\\n" ((renderedEntries pa format).map
        (fun p => "\t--" ++ p.1 ++ " " ++ jsStr p.2.value)))) ∧
    (∀ k, k ∈ renderedKeys pa FormatMode.onlyRequired →
      k ∈ renderedKeys pa FormatMode.full) ∧
    (∀ k, (k ∈ renderedKeys pa FormatMode.full ∧
        k ∉ renderedKeys pa FormatMode.onlyRequired) ↔
      ∃ a, (k, a) ∈ pa ∧ a.skippable = true ∧ truthy a.value = true) := by
  have hlen : ¬pa.length = 0 := by simpa [List.length_eq_zero] using hne
  refine ⟨?_, ?_, ?_⟩
  · intro format
    have hok : formatCliArgs pa format =
        .ok (joinSep " \\\n" (cliArgTokens pa format)) := by
      rw [formatCliArgs, equivalent, if_neg hlen]
    rw [hok, cliArgTokens_eq]
  · intro k hk
    simp only [renderedKeys, renderedEntries, List.mem_map, List.mem_filter] at hk ⊢
    obtain ⟨p, ⟨hpmem, hpcond⟩, hpk⟩ := hk
    refine ⟨p, ⟨hpmem, ?_⟩, hpk⟩
    revert hpcond
    cases truthy p.2.value <;> cases p.2.skippable <;> simp
  · intro k
    constructor
    · rintro ⟨hfull, honly⟩
      simp only [renderedKeys, renderedEntries, List.mem_map,
        List.mem_filter] at hfull honly
      obtain ⟨p, ⟨hpmem, hpcond⟩, hpk⟩ := hfull
      have htruthy : truthy p.2.value = true := by
        revert hpcond
        cases truthy p.2.value <;> simp
      have hskip : p.2.skippable = true := by
        by_contra hs
        apply honly
        refine ⟨p, ⟨hpmem, ?_⟩, hpk⟩
        cases hb : p.2.skippable
        · simp [htruthy, hb]
        · exact absurd hb hs
      refine ⟨p.2, ?_, hskip, htruthy⟩
      have : p = (k, p.2) := by
        cases p; simp at hpk; simp [hpk]
      rw [← this]; exact hpmem
    · rintro ⟨a, hmem, hskip, htruthy⟩
      constructor
      · simp only [renderedKeys, renderedEntries, List.mem_map, List.mem_filter]
        exact ⟨(k, a), ⟨hmem, by simp [htruthy]⟩, rfl⟩
      · intro hk
        simp only [renderedKeys, renderedEntries, List.mem_map,
          List.mem_filter] at hk
        obtain ⟨q, ⟨hqmem, hqcond⟩, hqk⟩ := hk
        have hq : q = (k, q.2) := by
          cases q; simp at hqk; simp [hqk]
        have : q.2 = a := mem_unique_of_nodup_keys hnd (hq ▸ hqmem) hmem
        rw [this] at hqcond
        simp [hskip, htruthy] at hqcond

/-! ## Lemmas on the batching client -/

theorem getBatch_nil (c : Nat) : getBatch [] c = [] := by
  rw [getBatch]; simp

theorem getBatch_cons (arns : List String) (c : Nat) (hc : 0 < c)
    (h : arns ≠ []) :
    getBatch arns c = arns.take c :: getBatch (arns.drop c) c := by
  rw [getBatch]
  rw [dif_neg (fun hor =>
    hor.elim (fun h0 => absurd h0 (Nat.pos_iff_ne_zero.mp hc)) h)]

theorem getBatch_join (arns : List String) (c : Nat) (hc : 0 < c) :
    (getBatch arns c).flatten = arns := by
  by_cases h : arns = []
  · subst h; rw [getBatch_nil]; rfl
  · rw [getBatch_cons arns c hc h, List.flatten_cons,
      getBatch_join (arns.drop c) c hc, List.take_append_drop]
termination_by arns.length
decreasing_by
  simp only [List.length_drop]
  have := List.length_pos.mpr h
  omega

theorem getBatch_length (arns : List String) (c : Nat) (hc : 0 < c) :
    (getBatch arns c).length = (arns.length + c - 1) / c := by
  by_cases h : arns = []
  · subst h
    rw [getBatch_nil]
    simp [Nat.div_eq_of_lt (show c - 1 < c by omega)]
  · have hlen : 0 < arns.length := List.length_pos.mpr h
    rw [getBatch_cons arns c hc h, List.length_cons,
      getBatch_length (arns.drop c) c hc, List.length_drop]
    have h1 : arns.length + c - 1 = (arns.length - 1) + c := by omega
    rw [h1, Nat.add_div_right _ hc]
    congr 1
    by_cases h2 : c ≤ arns.length
    · congr 1
      omega
    · have e1 : arns.length - c + c - 1 = c - 1 := by omega
      have e2 : (c - 1) / c = 0 := Nat.div_eq_of_lt (by omega)
      have e3 : (arns.length - 1) / c = 0 := Nat.div_eq_of_lt (by omega)
      rw [e1, e2, e3]
termination_by arns.length
decreasing_by
  simp only [List.length_drop]
  omega

theorem getBatch_mem_shape (arns : List String) (c : Nat) (hc : 0 < c) :
    ∀ b ∈ getBatch arns c, b ≠ [] ∧ b.length ≤ c := by
  by_cases h : arns = []
  · subst h; rw [getBatch_nil]; intro b hb; simp at hb
  · rw [getBatch_cons arns c hc h]
    intro b hb
    rcases List.mem_cons.mp hb with hb1 | hb2
    · subst hb1
      refine ⟨?_, ?_⟩
      · intro hnil
        rcases List.take_eq_nil_iff.mp hnil with h0 | h0
        · exact absurd h0 (Nat.pos_iff_ne_zero.mp hc)
        · exact h h0
      · rw [List.length_take]
        exact Nat.min_le_left _ _
    · exact getBatch_mem_shape (arns.drop c) c hc b hb2
termination_by arns.length
decreasing_by
  simp only [List.length_drop]
  have := List.length_pos.mpr h
  omega

theorem checkResponse_ok_shape (resp : DescribeTasksResponse) (ts : List Task)
    (h : checkResponse resp = .ok ts) : ts = resp.tasks.getD [] := by
  rw [checkResponse] at h
  split at h
  · exact Except.noConfusion h
  · split at h
    · exact Except.noConfusion h
    · rename_i ts' heq
      split at h
      · exact Except.noConfusion h
      · rw [heq]
        cases h
        rfl

theorem checkResponse_failures (resp : DescribeTasksResponse)
    (h : 0 < (resp.failures.getD []).length) :
    checkResponse resp =
      .error (describeTasksFailureMessage (resp.failures.getD [])) := by
  rw [checkResponse, if_pos h]

theorem checkResponse_noTasks (resp : DescribeTasksResponse)
    (hf : resp.failures.getD [] = []) (ht : resp.tasks.getD [] = []) :
    checkResponse resp = .error NO_TASKS_RETURNED := by
  rw [checkResponse, if_neg (by simp [hf])]
  cases h : resp.tasks with
  | none => rfl
  | some ts =>
    have hts : ts = [] := by simpa [h] using ht
    simp [hts]

theorem processBatches_ok (send : List String → String → DescribeTasksResponse)
    (cl : String) (bs : List (List String))
    (h : ∀ b ∈ bs, (checkResponse (send b cl)).isOk) :
    processBatches send cl bs =
      (bs, .ok ((bs.map (fun b => (send b cl).tasks.getD [])).flatten)) := by
  induction bs with
  | nil => simp [processBatches]
  | cons b rest ih =>
    have hb : (checkResponse (send b cl)).isOk := h b (List.mem_cons_self b rest)
    obtain ⟨ts, hts⟩ : ∃ ts, checkResponse (send b cl) = .ok ts := by
      cases hcr : checkResponse (send b cl) with
      | error e => rw [hcr] at hb; exact absurd hb (by simp [Except.isOk, Except.toBool])
      | ok ts => exact ⟨ts, rfl⟩
    have hrest := ih (fun x hx => h x (List.mem_cons_of_mem b hx))
    have hshape := checkResponse_ok_shape _ _ hts
    simp [processBatches, hts, hrest, hshape, Except.map]

theorem processBatches_stops (send : List String → String → DescribeTasksResponse)
    (cl : String) (pre : List (List String)) (b : List String)
    (post : List (List String)) (e : String)
    (hpre : ∀ x ∈ pre, (checkResponse (send x cl)).isOk)
    (hb : checkResponse (send b cl) = .error e) :
    processBatches send cl (pre ++ b :: post) = (pre ++ [b], .error e) := by
  induction pre with
  | nil => simp [processBatches, hb]
  | cons p t ih =>
    have hp : (checkResponse (send p cl)).isOk :=
      hpre p (List.mem_cons_self p t)
    obtain ⟨ts, hts⟩ : ∃ ts, checkResponse (send p cl) = .ok ts := by
      cases hcr : checkResponse (send p cl) with
      | error e' => rw [hcr] at hp; exact absurd hp (by simp [Except.isOk, Except.toBool])
      | ok ts => exact ⟨ts, rfl⟩
    have ht := ih (fun x hx => hpre x (List.mem_cons_of_mem p hx))
    simp [processBatches, hts, ht, Except.map]

/-! ## C6: batching of the bulk describe -/

/-- **C6.** For a positive batch ceiling `c`, the bulk describe partitions
a non-empty identifier list into `⌈n / c⌉` contiguous non-empty batches of
at most `c` identifiers whose concatenation is the input in order; one
describe request is issued per batch (the request trace is exactly the
batch list), and when every request succeeds the result is the
concatenation of the per-batch task lists in batch order. -/
theorem C6_bulk_describe_batches
    (send : List String → String → DescribeTasksResponse)
    (arns : List String) (cluster : String) (c : Nat)
    (hne : arns ≠ []) (hc : 0 < c) :
    (getBatch arns c).length = (arns.length + c - 1) / c ∧
    (getBatch arns c).flatten = arns ∧
    (∀ b ∈ getBatch arns c, b ≠ [] ∧ b.length ≤ c) ∧
    ((∀ b ∈ getBatch arns c, (checkResponse (send b cluster)).isOk) →
      paginateDescribeTasksRequest send ⟨arns, cluster⟩ c =
        (getBatch arns c,
          .ok (((getBatch arns c).map
            (fun b => (send b cluster).tasks.getD [])).flatten))) :=
  ⟨getBatch_length arns c hc, getBatch_join arns c hc,
    getBatch_mem_shape arns c hc,
    fun h => processBatches_ok send cluster (getBatch arns c) h⟩

/-- Witness for C6 at a concrete input: three identifiers, ceiling 2. -/
theorem C6_bulk_describe_batches_witness :
    (["t1", "t2", "t3"] : List String) ≠ [] ∧ 0 < 2 ∧
      (getBatch ["t1", "t2", "t3"] 2).flatten = ["t1", "t2", "t3"] :=
  ⟨by decide, by decide,
    (C6_bulk_describe_batches (fun _ _ => ⟨some [⟨none, none, none, none⟩], none⟩)
      ["t1", "t2", "t3"] "cl" 2 (by decide) (by decide)).2.1⟩

/-! ## C7: failure propagation in the bulk describe -/

theorem joinSep_cons (sep a : String) (rest : List String) (h : rest ≠ []) :
    joinSep sep (a :: rest) = a ++ sep ++ joinSep sep rest := by
  cases rest with
  | nil => exact absurd rfl h
  | cons b t => rfl

/-- A member of a joined list appears verbatim inside the join. -/
theorem joinSep_split (sep : String) (l1 : List String) (x : String)
    (l2 : List String) :
    ∃ p q : List Char, (joinSep sep (l1 ++ x :: l2)).data = p ++ x.data ++ q := by
  induction l1 with
  | nil =>
    cases l2 with
    | nil => exact ⟨[], [], by simp [joinSep]⟩
    | cons y t =>
      refine ⟨[], (sep ++ joinSep sep (y :: t)).data, ?_⟩
      rw [List.nil_append, joinSep_cons sep x (y :: t) (by simp)]
      simp [String.data_append, List.append_assoc]
  | cons a t ih =>
    obtain ⟨p, q, hpq⟩ := ih
    refine ⟨(a ++ sep).data ++ p, q, ?_⟩
    rw [List.cons_append, joinSep_cons sep a (t ++ x :: l2) (by simp)]
    simp [String.data_append, hpq, List.append_assoc]

/-- The serialized `detail` field of every failure appears verbatim in the
partial-batch-failure error message. -/
theorem detail_in_failure_message (fs : List Failure) (f : Failure)
    (d : String) (hf : f ∈ fs) (hd : f.detail = some d) :
    ∃ p q : List Char, (describeTasksFailureMessage fs).data =
      p ++ ("\"detail\": \"" ++ jsonEscape d ++ "\"").data ++ q := by
  have hmem : ("\"detail\": \"" ++ jsonEscape d ++ "\"") ∈ jsonFailureFields f := by
    simp [jsonFailureFields, hd]
  obtain ⟨fl1, fl2, hfl⟩ := List.append_of_mem hmem
  obtain ⟨p1, q1, hq1⟩ := joinSep_split ", " fl1 _ fl2
  rw [← hfl] at hq1
  have hobj : ("\x7b " ++ joinSep ", " (jsonFailureFields f) ++ " \x7d") ∈
      fs.map (fun g => "\x7b " ++ joinSep ", " (jsonFailureFields g) ++ " \x7d") :=
    List.mem_map.mpr ⟨f, hf, rfl⟩
  obtain ⟨ol1, ol2, hol⟩ := List.append_of_mem hobj
  obtain ⟨p2, q2, hq2⟩ := joinSep_split ", " ol1 _ ol2
  rw [← hol] at hq2
  refine ⟨("Failed to describe some tasks: ").data ++ ("[").data ++ p2 ++
      ("\x7b ").data ++ p1,
    q1 ++ (" \x7d").data ++ q2 ++ ("]").data, ?_⟩
  simp only [describeTasksFailureMessage, jsonStringifyFailures,
    String.data_append, hq2, hq1, List.append_assoc]

/-- **C7.** The bulk describe fails fast, without retrying: with every
earlier batch succeeding, a batch whose response reports partial failures
makes `paginateDescribeTasksRequest` throw the descriptive error carrying
the serialized failures, and a batch whose response carries no tasks (in
particular the first batch, when the API returns zero items for a
non-empty input) makes it throw `NO_TASKS_RETURNED`; in both cases the
request trace ends at the failing batch — no later batch is ever issued —
and the raw `detail` of any reported failure appears verbatim in the
error message. -/
theorem C7_bulk_describe_failure_propagation
    (send : List String → String → DescribeTasksResponse) (cluster : String) :
    (∀ pre batch post,
      (∀ x ∈ pre, (checkResponse (send x cluster)).isOk) →
      0 < ((send batch cluster).failures.getD []).length →
      processBatches send cluster (pre ++ batch :: post) =
        (pre ++ [batch],
          .error (describeTasksFailureMessage
            ((send batch cluster).failures.getD [])))) ∧
    (∀ pre batch post,
      (∀ x ∈ pre, (checkResponse (send x cluster)).isOk) →
      (send batch cluster).failures.getD [] = [] →
      (send batch cluster).tasks.getD [] = [] →
      processBatches send cluster (pre ++ batch :: post) =
        (pre ++ [batch], .error NO_TASKS_RETURNED)) ∧
    (∀ arns c, arns ≠ [] → 0 < c →
      (send (arns.take c) cluster).failures.getD [] = [] →
      (send (arns.take c) cluster).tasks.getD [] = [] →
      paginateDescribeTasksRequest send ⟨arns, cluster⟩ c =
        ([arns.take c], .error NO_TASKS_RETURNED)) ∧
    (∀ (fs : List Failure) (f : Failure) (d : String), f ∈ fs →
      f.detail = some d →
      ∃ p q : List Char, (describeTasksFailureMessage fs).data =
        p ++ ("\"detail\": \"" ++ jsonEscape d ++ "\"").data ++ q) := by
  refine ⟨?_, ?_, ?_, ?_⟩
  · intro pre batch post hpre hfail
    exact processBatches_stops send cluster pre batch post _ hpre
      (checkResponse_failures _ hfail)
  · intro pre batch post hpre hfl htl
    exact processBatches_stops send cluster pre batch post _ hpre
      (checkResponse_noTasks _ hfl htl)
  · intro arns c hne hc hfl htl
    show processBatches send cluster (getBatch arns c) = _
    rw [getBatch_cons arns c hc hne]
    have hstops := processBatches_stops send cluster [] (arns.take c)
      (getBatch (arns.drop c) c) NO_TASKS_RETURNED (by simp)
      (checkResponse_noTasks _ hfl htl)
    simpa using hstops
  · intro fs f d hf hd
    exact detail_in_failure_message fs f d hf hd

/-- Witness for C8 at a concrete resolved state: a skippable `cluster`
entry and a required `db-host` entry. -/
theorem C8_formatCliArgs_subset_witness :
    (([("cluster", Arg.mk true (some "prod")),
        ("db-host", Arg.mk false (some "db.example"))] :
          List (String × Arg)).map Prod.fst).Nodup ∧
    ([("cluster", Arg.mk true (some "prod")),
        ("db-host", Arg.mk false (some "db.example"))] :
          List (String × Arg)) ≠ [] ∧
    (∀ k, k ∈ renderedKeys [("cluster", Arg.mk true (some "prod")),
        ("db-host", Arg.mk false (some "db.example"))] FormatMode.onlyRequired →
      k ∈ renderedKeys [("cluster", Arg.mk true (some "prod")),
        ("db-host", Arg.mk false (some "db.example"))] FormatMode.full) :=
  ⟨by decide, by decide,
    (C8_formatCliArgs_subset
      [("cluster", Arg.mk true (some "prod")),
        ("db-host", Arg.mk false (some "db.example"))]
      (by decide) (by decide)).2.1⟩

/-- The composed target descriptor on concrete coordinates: the spec's
end-to-end shape `ecs:prod_abc123_<runtimeId>`. -/
theorem target_getter_concrete :
    TargetResolverState.target ⟨some "prod", some "abc123", some "rt1", none⟩ =
      .ok "ecs:prod_abc123_rt1" := rfl

/-- The forwarding-parameters payload on concrete values: each field is a
singleton list. -/
theorem forwardingParams_concrete :
    FPState.forwardingParams ⟨some "db.example", some "5432", some "15432"⟩ =
      .ok ⟨["db.example"], ["5432"], ["15432"]⟩ := rfl

/-! ## C9: the caller's array survives the bulk describe -/

theorem Store.read_write (σ : Store) (r : Nat) (v : List String) (x : Nat) :
    (σ.write r v).read x = if x = r then v else σ.read x := rfl

/-- The describe loop only ever writes the generator's copy cell: every
other cell reads as before, whether the loop completes or stops at a
failing batch. -/
theorem describeLoop_frame (send : List String → String → DescribeTasksResponse)
    (cl : String) (size : Nat) (σ : Store) (copyRef : Nat) (acc : List Task)
    (x : Nat) (hx : x ≠ copyRef) :
    ((describeLoop send cl size σ copyRef acc).1).read x = σ.read x := by
  by_cases hcond : size = 0 ∨ σ.read copyRef = []
  · rw [describeLoop, dif_pos hcond]
  · rw [describeLoop, dif_neg hcond]
    cases hcr : checkResponse (send ((σ.read copyRef).take size) cl) with
    | error e =>
      show (σ.write copyRef ((σ.read copyRef).drop size)).read x = σ.read x
      rw [Store.read_write, if_neg hx]
    | ok ts =>
      show (describeLoop send cl size
        (σ.write copyRef ((σ.read copyRef).drop size)) copyRef
        (acc ++ ts)).1.read x = σ.read x
      rw [describeLoop_frame send cl size
        (σ.write copyRef ((σ.read copyRef).drop size)) copyRef (acc ++ ts) x hx]
      rw [Store.read_write, if_neg hx]
termination_by (σ.read copyRef).length
decreasing_by
  push_neg at hcond
  have h3 : 0 < (σ.read copyRef).length := List.length_pos.mpr hcond.2
  simp [Store.write, Store.read] at h3 ⊢
  omega

/-- The store-level describe loop computes the pure model's trace and
result (the accumulator is prepended to a successful result). -/
theorem describeLoop_spec (send : List String → String → DescribeTasksResponse)
    (cl : String) (size : Nat) (σ : Store) (copyRef : Nat) (acc : List Task) :
    (describeLoop send cl size σ copyRef acc).2 =
      ((processBatches send cl (getBatch (σ.read copyRef) size)).1,
        Except.map (fun ts => acc ++ ts)
          (processBatches send cl (getBatch (σ.read copyRef) size)).2) := by
  by_cases hcond : size = 0 ∨ σ.read copyRef = []
  · rw [describeLoop, dif_pos hcond]
    have hgb : getBatch (σ.read copyRef) size = [] := by
      rcases hcond with h0 | h0
      · rw [getBatch]; simp [h0]
      · rw [h0, getBatch_nil]
    rw [hgb]
    simp [processBatches, Except.map]
  · have hcond' : ¬size = 0 ∧ ¬σ.read copyRef = [] := by
      constructor
      · exact fun h0 => hcond (Or.inl h0)
      · exact fun h0 => hcond (Or.inr h0)
    rw [describeLoop, dif_neg hcond]
    rw [getBatch_cons (σ.read copyRef) size (Nat.pos_of_ne_zero hcond'.1)
      hcond'.2]
    cases hcr : checkResponse (send ((σ.read copyRef).take size) cl) with
    | error e =>
      simp [processBatches, hcr, Except.map]
    | ok ts =>
      have hrec := describeLoop_spec send cl size
        (σ.write copyRef ((σ.read copyRef).drop size)) copyRef (acc ++ ts)
      have hread : (σ.write copyRef ((σ.read copyRef).drop size)).read copyRef =
          (σ.read copyRef).drop size := by
        rw [Store.read_write, if_pos rfl]
      rw [hread] at hrec
      show ((describeLoop send cl size
          (σ.write copyRef ((σ.read copyRef).drop size)) copyRef (acc ++ ts)).2.1.cons
            ((σ.read copyRef).take size),
          (describeLoop send cl size
            (σ.write copyRef ((σ.read copyRef).drop size)) copyRef (acc ++ ts)).2.2) = _
      rw [hrec]
      cases hpb : (processBatches send cl
          (getBatch ((σ.read copyRef).drop size) size)).2 with
      | error e => simp [processBatches, hcr, hpb, Except.map]
      | ok rest => simp [processBatches, hcr, hpb, Except.map, List.append_assoc]
termination_by (σ.read copyRef).length
decreasing_by
  push_neg at hcond
  have h3 : 0 < (σ.read copyRef).length := List.length_pos.mpr hcond.2
  simp [Store.write, Store.read] at h3 ⊢
  omega

/-- **C9.** The bulk describe leaves the caller's `taskArns` array
untouched: the generator consumes a fresh copy (`Array.from`) rather than
the input, so after `paginateDescribeTasksRequest` returns or throws the
caller's array cell holds exactly the elements it held before, in order —
and the run computes the same request trace and outcome as the pure model
applied to the array's (unchanged) contents. -/
theorem C9_paginate_preserves_input_array
    (send : List String → String → DescribeTasksResponse) (σ : Store)
    (r : Nat) (cl : String) (size : Nat) (h : r < σ.next) :
    ((paginateDescribeTasksRequestST send σ r cl size).1).read r = σ.read r ∧
    (paginateDescribeTasksRequestST send σ r cl size).2 =
      paginateDescribeTasksRequest send ⟨σ.read r, cl⟩ size := by
  have hne : r ≠ σ.next := Nat.ne_of_lt h
  constructor
  · show (describeLoop send cl size ((σ.alloc (σ.read r)).1) σ.next []).1.read r =
      σ.read r
    rw [describeLoop_frame _ _ _ _ _ _ r hne]
    simp [Store.alloc, Store.read, hne]
  · show (describeLoop send cl size ((σ.alloc (σ.read r)).1) σ.next []).2 = _
    rw [describeLoop_spec]
    have hread : ((σ.alloc (σ.read r)).1).read σ.next = σ.read r := by
      simp [Store.alloc, Store.read]
    rw [hread]
    have hid : Except.map (fun ts => ([] : List Task) ++ ts)
        (processBatches send cl (getBatch (σ.read r) size)).2 =
        (processBatches send cl (getBatch (σ.read r) size)).2 := by
      cases hpb : (processBatches send cl (getBatch (σ.read r) size)).2 <;>
        simp [Except.map]
    rw [hid]
    show ((processBatches send cl (getBatch (σ.read r) size)).1,
        (processBatches send cl (getBatch (σ.read r) size)).2) =
      processBatches send cl (getBatch (σ.read r) size)
    exact rfl

/-- Witness for C9 at a concrete store: one allocated cell holding three
identifiers, batch size 2. -/
theorem C9_paginate_preserves_input_array_witness :
    (0 : Nat) < (1 : Nat) ∧
    ((paginateDescribeTasksRequestST
        (fun _ _ => ⟨some [⟨none, none, none, none⟩], none⟩)
        { next := 1, mem := fun _ => ["a", "b", "c"] } 0 "cl" 2).1).read 0 =
      ["a", "b", "c"] :=
  ⟨by decide,
    (C9_paginate_preserves_input_array
      (fun _ _ => ⟨some [⟨none, none, none, none⟩], none⟩)
      { next := 1, mem := fun _ => ["a", "b", "c"] } 0 "cl" 2 (by decide)).1⟩

end RdsPf
